import Mathlib

/-!
Verification of the sanic build logger (pkg/build/build_logger.go) and the
local-dev cluster health check / provisioner (provisioner_localdev).

Shallow embedding: Go strings are modelled as lists of characters (all data
involved is ASCII, so bytes = characters), the per-service log file as a byte
list with a write cursor (os.File semantics: WriteString overwrites at the
cursor and extends the file; Seek moves the cursor; nothing truncates), and
the Go map from status id to rendered line as an association list in insertion
order (iteration order is irrelevant to the results because the code sorts the
collected values).
-/

set_option maxHeartbeats 1000000

namespace Sanic

/-- Go strings, as lists of characters (ASCII: byte = character). -/
abbrev GoStr := List Char

def str (s : String) : GoStr := s.data

/-- Go string slicing s[i:j]: panics (modelled as none) unless i ≤ j ≤ len s. -/
def goSlice (s : GoStr) (i j : Nat) : Option GoStr :=
  if i ≤ j ∧ j ≤ s.length then some ((s.drop i).take (j - i)) else none

/-- logStatus: short id derivation — ids with the "sha256:" scheme prefix are
sliced as status.ID[7:19], other ids are used unchanged. -/
def idTextOf (id : GoStr) : Option GoStr :=
  if (str "sha256:").isPrefixOf id then goSlice id 7 19 else some id

/-- Does `needle` occur as a contiguous subsequence of the second argument? -/
def hasSub (needle : GoStr) : GoStr → Bool
  | [] => decide (needle = [])
  | c :: rest => needle.isPrefixOf (c :: rest) || hasSub needle rest

/-- humanReadableBytes' suffix table. -/
def suffixesHRB : List String := ["B", "KB", "MB", "GB", "TB", "PB", "EB"]

/-- Fuel-driven floor of log2 (log2fuel f n = ⌊log2 n⌋ whenever n < 2^f). -/
def log2fuel : Nat → Nat → Nat
  | 0, _ => 0
  | f + 1, n => if 2 ≤ n then log2fuel f (n / 2) + 1 else 0

/-- math.Logb on an exact integral float value: the binary exponent ⌊log2 n⌋.
64 units of fuel cover every int64 magnitude. -/
def goLogb (n : Nat) : Nat := log2fuel 64 n

/-- Round num/den to the nearest integer, ties to even (the rounding %.2f
applies to the exactly-representable binary value). -/
def roundHalfEven (num den : Nat) : Nat :=
  let q := num / den
  let r := num % den
  if 2 * r < den then q else if den < 2 * r then q + 1 else if q % 2 = 0 then q else q + 1

/-- Render a count of hundredths as a fixed two-decimal numeral, as %.2f does. -/
def twoDecimals (centi : Nat) : GoStr :=
  str (toString (centi / 100)) ++ str "." ++
    (if centi % 100 < 10 then str "0" else []) ++ str (toString (centi % 100))

/-- build_logger.go humanReadableBytes. Exact-rational model of
fmt.Sprintf("%.2f%s", float64(bytes)/math.Pow(1024, ⌊place⌋), suf[int64(place)])
with place = Logb(Abs(bytes))/10; it agrees with the Go float computation
whenever |bytes| < 2^53, where the float64 conversion is exact. -/
def humanReadableBytes (bytes : Int) : GoStr :=
  if bytes = 0 then str "0B"
  else
    let n := bytes.natAbs
    let place := goLogb n / 10
    let centi := roundHalfEven (n * 100) (2 ^ (10 * place))
    (if bytes < 0 then str "-" else []) ++ twoDecimals centi ++ str (suffixesHRB.getD place "")

/-- The per-service log file: its bytes plus the write cursor. WriteString
overwrites at the cursor (extending the file as needed) and advances it;
nothing ever truncates the file. -/
structure FileState where
  content : GoStr
  pos : Nat
deriving DecidableEq

def writeAt (f : FileState) (s : GoStr) : FileState :=
  { content := f.content.take f.pos ++ s ++ f.content.drop (f.pos + s.length),
    pos := f.pos + s.length }

def seekBack (f : FileState) (n : Nat) : FileState := { f with pos := f.pos - n }

/-- client.VertexStatus as used by logStatus: Completed is a *time.Time in Go,
only its nil-ness is observed, so it is modelled as a Bool; Timestamp is the
rendered local-time text (which never contains a close bracket). -/
structure VertexStatus where
  ID : GoStr
  Current : Int
  Total : Int
  Timestamp : GoStr
  Completed : Bool
deriving DecidableEq

/-- One service's slice of the flatfileLogger: the currVertexStatuses map
(association list in insertion order), the open file, and the trace of
(service, line) arguments each registered listener has been invoked with. -/
structure LoggerState where
  currVertexStatuses : List (GoStr × GoStr)
  file : FileState
  calls : List (GoStr × GoStr)
deriving DecidableEq

def initLogger : LoggerState := ⟨[], ⟨[], 0⟩, []⟩

/-- Go map assignment m[k] = v, on the association-list view. -/
def upsert : List (GoStr × GoStr) → GoStr → GoStr → List (GoStr × GoStr)
  | [], k, v => [(k, v)]
  | (k', v') :: rest, k, v =>
      if k' = k then (k, v) :: rest else (k', v') :: upsert rest k v

/-- Go map delete(m, k), on the association-list view. -/
def eraseKey : List (GoStr × GoStr) → GoStr → List (GoStr × GoStr)
  | [], _ => []
  | (k', v') :: rest, k => if k' = k then rest else (k', v') :: eraseKey rest k

def isRN (c : Char) : Bool := c = '\r' || c = '\n'

/-- strings.Trim(s, "\r\n"): removes leading and trailing \r and \n bytes. -/
def trimRN (s : GoStr) : GoStr := (((s.dropWhile isRN).reverse).dropWhile isRN).reverse

def permLineOf (when message : GoStr) : GoStr :=
  str "[" ++ when ++ str "] " ++ message ++ str "\n"

/-- flatfileLogger.Log. writeOk models whether the underlying f.WriteString
succeeds; on failure Log still notifies every listener and only then returns
the error (the Bool result: true = an error was returned). -/
def logMsg (st : LoggerState) (service when message : GoStr) (writeOk : Bool) :
    LoggerState × Bool :=
  let messageString := trimRN message
  let f := if writeOk then writeAt st.file (permLineOf when messageString) else st.file
  ({ st with file := f, calls := st.calls ++ [(service, messageString ++ str "\n")] },
   !writeOk)

/-- Index of the first close bracket, as strings.Index(s, "]") (none = -1). -/
def goIndexRBracket : GoStr → Option Nat
  | [] => none
  | c :: rest => if c = ']' then some 0 else (goIndexRBracket rest).map (· + 1)

/-- The "TODO HACK remove date" slice s[strings.Index(s, "]")+2:]. -/
def stripTs (s : GoStr) : GoStr :=
  match goIndexRBracket s with
  | some i => s.drop (i + 2)
  | none => s.drop 1

/-- Go bytewise string comparison s < t. -/
def strLt : GoStr → GoStr → Bool
  | [], [] => false
  | [], _ :: _ => true
  | _ :: _, [] => false
  | a :: as, b :: bs => if a = b then strLt as bs else decide (a < b)

/-- sort.Slice comparator of logStatus: compare the text after the timestamp. -/
def insertSorted (x : GoStr) : List GoStr → List GoStr
  | [] => [x]
  | y :: ys => if strLt (stripTs x) (stripTs y) then x :: y :: ys else y :: insertSorted x ys

def sortStatuses (l : List GoStr) : List GoStr := l.foldr insertSorted []

/-- The ephemeral status block: every map value, newline-terminated, sorted by
its non-timestamp portion. -/
def renderBlock (m : List (GoStr × GoStr)) : List GoStr :=
  sortStatuses (m.map (fun p => p.2 ++ str "\n"))

/-- The status text "<id> <current>[/<total>]" of logStatus. -/
def statusTextOf (idText : GoStr) (vs : VertexStatus) : GoStr :=
  if vs.Total ≠ 0 then
    idText ++ str " " ++ humanReadableBytes vs.Current ++ str "/" ++ humanReadableBytes vs.Total
  else idText ++ str " " ++ humanReadableBytes vs.Current

/-- flatfileLogger.logStatus. Returns none when the id slice panics. After the
optional permanent line for a completed id, the re-rendered block is written
and the cursor is seeked back over it; the listener loop repeatedly overwrites
one local variable, so each listener receives only the final (sorted-last)
line — or, when the block is empty, the completing event's status text. -/
def logStatus (st : LoggerState) (service : GoStr) (vs : VertexStatus) :
    Option LoggerState :=
  match idTextOf vs.ID with
  | none => none
  | some idText =>
    let statusText := statusTextOf idText vs
    let stt := str "[" ++ vs.Timestamp ++ str "] " ++ statusText
    let m := if vs.Completed then eraseKey st.currVertexStatuses vs.ID
             else upsert st.currVertexStatuses vs.ID stt
    let f1 := if vs.Completed then writeAt st.file (stt ++ str "\n") else st.file
    let statuses := renderBlock m
    let block := statuses.flatten
    let f2 := seekBack (writeAt f1 block) block.length
    let lastLine :=
      match statuses.getLast? with
      | none => statusText
      | some s => stripTs s
    some { currVertexStatuses := m, file := f2,
           calls := st.calls ++ [(service, lastLine ++ str "\n")] }

/-- client.Vertex as used by ProcessStatus. -/
structure Vertex where
  Name : GoStr
  Digest : GoStr
  Cached : Bool
  Error : GoStr
deriving DecidableEq

def vertexDiag (v : Vertex) : GoStr :=
  str "Vertex: '" ++ v.Name ++ str "',  '" ++ v.Error ++ str "',  '" ++ v.Digest ++ str "'"

def vertexMsg (v : Vertex) : GoStr :=
  if v.Cached then str "cached: " ++ v.Name else v.Name

def vertexErrLine (v : Vertex) : GoStr := v.Error ++ str ": LAYERID=" ++ v.Digest

/-- ProcessStatus, vertex-event arm: the verbose diagnostic is logged for every
vertex; names starting with "[internal]" (strings.Index == 0) are otherwise
suppressed; an error line precedes the (possibly "cached: "-prefixed) name. -/
def processVertex (verbose : Bool) (now : GoStr) (st : LoggerState) (service : GoStr)
    (v : Vertex) : LoggerState :=
  let st1 := if verbose then (logMsg st service now (vertexDiag v) true).1 else st
  if (str "[internal]").isPrefixOf v.Name then st1
  else
    let st2 := if v.Error ≠ [] then (logMsg st1 service now (vertexErrLine v) true).1 else st1
    (logMsg st2 service now (vertexMsg v) true).1

/-- client.VertexLog as used by ProcessStatus. -/
structure BKLogEvent where
  Data : GoStr
  VertexDigest : GoStr
  Timestamp : GoStr
deriving DecidableEq

def logEventDiag (lg : BKLogEvent) : GoStr :=
  str "Log: '" ++ lg.Data ++ str "',  '" ++ lg.VertexDigest ++ str "'"

/-- ProcessStatus, raw-log arm: optional verbose diagnostic, then the data is
trimmed of \r\n and logged with the event's own timestamp. -/
def processLogEvent (verbose : Bool) (now : GoStr) (st : LoggerState) (service : GoStr)
    (lg : BKLogEvent) : LoggerState :=
  let st1 := if verbose then (logMsg st service now (logEventDiag lg) true).1 else st
  (logMsg st1 service lg.Timestamp (trimRN lg.Data) true).1

/-- The operator's effective answer to the redeploy prompt (the Go loop
re-prompts until it reads y/Y, n/N or an empty line). -/
inductive Answer
  | yes
  | no
  | empty
deriving DecidableEq

/-- The fatal outcomes of checkCluster / checkClusterReady, one constructor per
distinct error message. -/
inductive ClusterError
  | wrongNodeCount
  | notProvisioned
  | partiallyCrashed (running expected : Nat)
  | someNotRunning
  | needsRedeploy
  | notHealthy
deriving DecidableEq

/-- ProvisionerLocalDev.checkClusterReady, after the kubectl output has been
parsed: nodeTimes are the lastTransitionTime values (seconds), nodesReady the
readiness condition texts, now the current time (seconds). A transition is
recent when statusTime.Add(time.Minute).After(now), i.e. t + 60 > now. -/
def checkClusterReady (nodeTimes : List Int) (nodesReady : List String) (now : Int)
    (answer : Answer) : Except ClusterError Unit :=
  if nodeTimes.length ≠ 4 then .error .wrongNodeCount
  else if nodesReady.all (fun s => s == "True") then .ok ()
  else if nodeTimes.any (fun t => decide (now < t + 60)) then
    if answer = Answer.yes then .error .needsRedeploy else .ok ()
  else .error .notHealthy

/-- The fixed expected topology (keys of requiredContainersRunning). -/
def requiredNodeNames : List String :=
  ["sanic-worker", "sanic-worker2", "sanic-worker3", "sanic-control-plane"]

/-- ProvisionerLocalDev.checkCluster: zero nodes, wrong count, then a missing
expected name are fatal, otherwise readiness is delegated. -/
def checkCluster (nodes : List String) (nodeTimes : List Int) (nodesReady : List String)
    (now : Int) (answer : Answer) : Except ClusterError Unit :=
  if nodes.length = 0 then .error .notProvisioned
  else if nodes.length ≠ requiredNodeNames.length then
    .error (.partiallyCrashed nodes.length requiredNodeNames.length)
  else if requiredNodeNames.any (fun n => !(nodes.contains n)) then .error .someNotRunning
  else checkClusterReady nodeTimes nodesReady now answer

/-- A chain of successful Log calls with one service and one wall-clock value:
the shape ProcessStatus's vertex arm composes. -/
def logSeq (st : LoggerState) (service now : GoStr) (msgs : List GoStr) : LoggerState :=
  msgs.foldl (fun s m => (logMsg s service now m true).1) st

/-! ### Supporting lemmas -/

theorem log2fuel_spec : ∀ f n, 1 ≤ n → n < 2 ^ f →
    2 ^ log2fuel f n ≤ n ∧ n < 2 ^ (log2fuel f n + 1) := by
  intro f
  induction f with
  | zero => intro n h1 h2; simp at h2; omega
  | succ f ih =>
    intro n h1 h2
    simp only [log2fuel]
    by_cases h2le : 2 ≤ n
    · rw [if_pos h2le]
      have hdiv1 : 1 ≤ n / 2 := (Nat.one_le_div_iff (by norm_num)).mpr h2le
      have hdivlt : n / 2 < 2 ^ f := by
        rw [Nat.div_lt_iff_lt_mul (by norm_num : 0 < 2)]
        calc n < 2 ^ (f + 1) := h2
          _ = 2 ^ f * 2 := by rw [pow_succ]
      obtain ⟨hl, hr⟩ := ih (n / 2) hdiv1 hdivlt
      constructor
      · calc 2 ^ (log2fuel f (n / 2) + 1) = 2 ^ log2fuel f (n / 2) * 2 := by rw [pow_succ]
          _ ≤ n / 2 * 2 := Nat.mul_le_mul_right 2 hl
          _ ≤ n := Nat.div_mul_le_self n 2
      · have h' : n < 2 ^ (log2fuel f (n / 2) + 1) * 2 :=
          (Nat.div_lt_iff_lt_mul (by norm_num : 0 < 2)).mp hr
        calc n < 2 ^ (log2fuel f (n / 2) + 1) * 2 := h'
          _ = 2 ^ (log2fuel f (n / 2) + 1 + 1) := (pow_succ 2 (log2fuel f (n / 2) + 1)).symm
    · rw [if_neg h2le]
      have hn : n = 1 := by omega
      subst hn; simp

theorem goLogb_spec (n : Nat) (h1 : 1 ≤ n) (h2 : n < 2 ^ 64) :
    2 ^ goLogb n ≤ n ∧ n < 2 ^ (goLogb n + 1) :=
  log2fuel_spec 64 n h1 h2

theorem writeAt_take (f : FileState) (s : GoStr) (h : f.pos ≤ f.content.length) :
    (writeAt f s).content.take (writeAt f s).pos = f.content.take f.pos ++ s ∧
    (writeAt f s).pos ≤ (writeAt f s).content.length := by
  have hlen : (f.content.take f.pos).length = f.pos := by rw [List.length_take]; omega
  constructor
  · show (f.content.take f.pos ++ s ++ f.content.drop (f.pos + s.length)).take
        (f.pos + s.length) = f.content.take f.pos ++ s
    have h2 : f.pos + s.length = (f.content.take f.pos ++ s).length := by
      rw [List.length_append, hlen]
    rw [h2, List.take_left]
  · show f.pos + s.length ≤
      (f.content.take f.pos ++ s ++ f.content.drop (f.pos + s.length)).length
    rw [List.length_append, List.length_append, hlen]
    omega

theorem writeAt_take_pres (f : FileState) (s : GoStr) (h : f.pos ≤ f.content.length) :
    (writeAt f s).content.take f.pos = f.content.take f.pos := by
  have hlen : (f.content.take f.pos).length = f.pos := by rw [List.length_take]; omega
  show (f.content.take f.pos ++ s ++ f.content.drop (f.pos + s.length)).take f.pos =
    f.content.take f.pos
  rw [List.append_assoc, List.take_append_eq_append_take, hlen, Nat.sub_self,
    List.take_zero, List.append_nil, List.take_take, Nat.min_self]

theorem logMsg_calls (st : LoggerState) (service when message : GoStr) (writeOk : Bool) :
    (logMsg st service when message writeOk).1.calls =
      st.calls ++ [(service, trimRN message ++ str "\n")] := rfl

theorem logMsg_cvs (st : LoggerState) (service when message : GoStr) (writeOk : Bool) :
    (logMsg st service when message writeOk).1.currVertexStatuses =
      st.currVertexStatuses := rfl

theorem logMsg_file_false (st : LoggerState) (service when message : GoStr) :
    (logMsg st service when message false).1.file = st.file := rfl

theorem logMsg_run (st : LoggerState) (service when message : GoStr)
    (h : st.file.pos = st.file.content.length) :
    (logMsg st service when message true).1.file.content =
      st.file.content ++ permLineOf when (trimRN message) ∧
    (logMsg st service when message true).1.file.pos =
      (logMsg st service when message true).1.file.content.length := by
  have h1 : st.file.content.take st.file.pos = st.file.content := by
    rw [h, List.take_length]
  have h2 : st.file.content.drop (st.file.pos + (permLineOf when (trimRN message)).length)
      = [] := List.drop_eq_nil_of_le (by omega)
  constructor
  · show st.file.content.take st.file.pos ++ permLineOf when (trimRN message) ++
        st.file.content.drop (st.file.pos + (permLineOf when (trimRN message)).length) =
      st.file.content ++ permLineOf when (trimRN message)
    rw [h1, h2, List.append_nil]
  · show st.file.pos + (permLineOf when (trimRN message)).length =
      (st.file.content.take st.file.pos ++ permLineOf when (trimRN message) ++
        st.file.content.drop
          (st.file.pos + (permLineOf when (trimRN message)).length)).length
    rw [h1, h2, List.append_nil, List.length_append, h]

theorem logSeq_run : ∀ (msgs : List GoStr) (st : LoggerState) (service now : GoStr),
    st.file.pos = st.file.content.length →
    (logSeq st service now msgs).calls =
      st.calls ++ msgs.map (fun m => (service, trimRN m ++ str "\n")) ∧
    (logSeq st service now msgs).file.content =
      st.file.content ++ (msgs.map (fun m => permLineOf now (trimRN m))).flatten ∧
    (logSeq st service now msgs).file.pos =
      (logSeq st service now msgs).file.content.length ∧
    (logSeq st service now msgs).currVertexStatuses = st.currVertexStatuses := by
  intro msgs
  induction msgs with
  | nil => intro st service now h; simpa [logSeq] using h
  | cons m ms ih =>
    intro st service now h
    have hrun := logMsg_run st service now m h
    have hi := ih (logMsg st service now m true).1 service now hrun.2
    have hseq : logSeq st service now (m :: ms) =
        logSeq (logMsg st service now m true).1 service now ms := rfl
    refine ⟨?_, ?_, ?_, ?_⟩
    · rw [hseq, hi.1, logMsg_calls]
      simp [List.append_assoc]
    · rw [hseq, hi.2.1, hrun.1]
      simp [List.append_assoc]
    · rw [hseq]; exact hi.2.2.1
    · rw [hseq, hi.2.2.2, logMsg_cvs]

theorem dropWhile_head_not (p : Char → Bool) (l : GoStr) :
    ∀ c, (l.dropWhile p).head? = some c → p c = false := by
  induction l with
  | nil => intro c h; simp [List.dropWhile] at h
  | cons a t ih =>
    intro c h
    rw [List.dropWhile_cons] at h
    by_cases hp : p a
    · rw [if_pos hp] at h; exact ih c h
    · rw [if_neg hp] at h
      simp only [List.head?_cons, Option.some.injEq] at h
      subst h
      simpa using hp

theorem dropWhile_eq_self_of_head (p : Char → Bool) (l : GoStr)
    (h : ∀ c, l.head? = some c → p c = false) : l.dropWhile p = l := by
  cases l with
  | nil => rfl
  | cons a t =>
    rw [List.dropWhile_cons, if_neg]
    rw [h a rfl]
    simp

theorem trimRN_decomp (s : GoStr) :
    ∃ pre suf, s = pre ++ trimRN s ++ suf ∧ pre.all isRN = true ∧ suf.all isRN = true := by
  refine ⟨s.takeWhile isRN, ((s.dropWhile isRN).reverse.takeWhile isRN).reverse, ?_, ?_, ?_⟩
  · have hd : s.dropWhile isRN =
        trimRN s ++ ((s.dropWhile isRN).reverse.takeWhile isRN).reverse := by
      have h0 := List.takeWhile_append_dropWhile (p := isRN) (l := (s.dropWhile isRN).reverse)
      have h2 := congrArg List.reverse h0
      rw [List.reverse_append, List.reverse_reverse] at h2
      exact h2.symm
    conv_lhs => rw [← List.takeWhile_append_dropWhile (p := isRN) (l := s), hd]
    rw [List.append_assoc]
  · rw [List.all_eq_true]
    intro x hx
    exact List.mem_takeWhile_imp hx
  · rw [List.all_eq_true]
    intro x hx
    rw [List.mem_reverse] at hx
    exact List.mem_takeWhile_imp hx

theorem trimRN_getLast (s : GoStr) : ∀ c, (trimRN s).getLast? = some c → isRN c = false := by
  intro c h
  have h' : ((s.dropWhile isRN).reverse.dropWhile isRN).head? = some c := by
    rw [← List.getLast?_reverse]; exact h
  exact dropWhile_head_not isRN _ c h'

theorem trimRN_head (s : GoStr) : ∀ c, (trimRN s).head? = some c → isRN c = false := by
  intro c h
  have h1 : ((s.dropWhile isRN).reverse.dropWhile isRN).getLast? = some c := by
    rw [← List.head?_reverse]; exact h
  have hne : (s.dropWhile isRN).reverse.dropWhile isRN ≠ [] := by
    intro he; rw [he] at h1; simp at h1
  have h2 : ((s.dropWhile isRN).reverse).getLast? = some c := by
    conv_lhs => rw [← List.takeWhile_append_dropWhile (p := isRN)
      (l := (s.dropWhile isRN).reverse)]
    rw [List.getLast?_append_of_ne_nil _ hne]
    exact h1
  have h3 : (s.dropWhile isRN).head? = some c := by
    rw [← List.getLast?_reverse]; exact h2
  exact dropWhile_head_not isRN s c h3

theorem trimRN_idem (s : GoStr) : trimRN (trimRN s) = trimRN s := by
  have h1 : (trimRN s).dropWhile isRN = trimRN s :=
    dropWhile_eq_self_of_head isRN _ (trimRN_head s)
  have h2 : (trimRN s).reverse.dropWhile isRN = (trimRN s).reverse := by
    apply dropWhile_eq_self_of_head
    intro c hc
    rw [List.head?_reverse] at hc
    exact trimRN_getLast s c hc
  show (((trimRN s).dropWhile isRN).reverse.dropWhile isRN).reverse = trimRN s
  rw [h1, h2, List.reverse_reverse]

theorem eraseKey_not_mem (m : List (GoStr × GoStr)) (k : GoStr)
    (h : (m.map Prod.fst).Nodup) : ∀ v, (k, v) ∉ eraseKey m k := by
  induction m with
  | nil => intro v hv; simp [eraseKey] at hv
  | cons p rest ih =>
    obtain ⟨k', v'⟩ := p
    intro v hv
    rw [List.map_cons, List.nodup_cons] at h
    simp only [eraseKey] at hv
    by_cases hk : k' = k
    · rw [if_pos hk] at hv
      subst hk
      have hm : k' ∈ rest.map Prod.fst := List.mem_map_of_mem Prod.fst hv
      exact h.1 hm
    · rw [if_neg hk] at hv
      rcases List.mem_cons.mp hv with h1 | h2
      · exact hk (congrArg Prod.fst h1).symm
      · exact ih h.2 v h2

theorem processVertex_eq_logSeq (verbose : Bool) (now : GoStr) (st : LoggerState)
    (service : GoStr) (v : Vertex) :
    processVertex verbose now st service v =
      logSeq st service now
        ((if verbose then [vertexDiag v] else []) ++
          (if (str "[internal]").isPrefixOf v.Name then []
           else (if v.Error ≠ [] then [vertexErrLine v] else []) ++ [vertexMsg v])) := by
  cases verbose <;> by_cases hp : (str "[internal]").isPrefixOf v.Name <;>
    by_cases hE : v.Error = [] <;>
    simp [processVertex, logSeq, hp, hE]

/-! ### Claims -/

/-- Claim C1 (code bug): the ephemeral tail should always equal exactly the
most recently rendered status block, but logStatus only overwrites and seeks
back — it never truncates. Two non-completion updates to id "x" shrink the
rendered block from "[T] x 1000.00B\n" to "[T] x 1.00KB\n", and the file's
tail keeps the residual bytes "B\n" of the older, longer block. -/
theorem claim_C1_bug :
    ((logStatus initLogger (str "svc") ⟨str "x", 1000, 0, str "T", false⟩).bind
        (fun s1 => logStatus s1 (str "svc") ⟨str "x", 1024, 0, str "T", false⟩)).map
      (fun s2 => (s2.file.content.drop s2.file.pos,
        (renderBlock s2.currVertexStatuses).flatten)) =
      some (str "[T] x 1.00KB\nB\n", str "[T] x 1.00KB\n") ∧
    str "[T] x 1.00KB\nB\n" ≠ str "[T] x 1.00KB\n" := by
  constructor
  · decide
  · decide

/-- Claim C3 (amended): every registered listener is invoked exactly once per
permanent-line write — whether or not the underlying write succeeds — and
exactly once per status re-render; the re-render callback receives the line
that sorts last in the rendered block, with its timestamp prefix stripped
(or, when the block became empty, the completing event's status text), not
necessarily the just-updated id's line. -/
theorem claim_C3 :
    (∀ (st : LoggerState) (service when message : GoStr) (writeOk : Bool),
      (logMsg st service when message writeOk).1.calls =
        st.calls ++ [(service, trimRN message ++ str "\n")]) ∧
    (∀ (st st' : LoggerState) (service : GoStr) (vs : VertexStatus) (idT : GoStr),
      idTextOf vs.ID = some idT →
      logStatus st service vs = some st' →
      st'.calls = st.calls ++ [(service,
        (match (renderBlock st'.currVertexStatuses).getLast? with
         | none => statusTextOf idT vs
         | some s => stripTs s) ++ str "\n")]) := by
  constructor
  · intro st service when message writeOk
    rfl
  · intro st st' service vs idT hid hlog
    simp only [logStatus, hid] at hlog
    injection hlog with h
    subst h
    rfl

/-- Witness for C3: the status re-render callback after one update to id "b"
from the empty state. -/
theorem claim_C3_witness :
    (⟨[(str "b", str "[T] b 1.00B")], ⟨str "[T] b 1.00B\n", 0⟩,
        [(str "svc", str "b 1.00B\n\n")]⟩ : LoggerState).calls =
      initLogger.calls ++ [(str "svc",
        (match (renderBlock (⟨[(str "b", str "[T] b 1.00B")], ⟨str "[T] b 1.00B\n", 0⟩,
            [(str "svc", str "b 1.00B\n\n")]⟩ : LoggerState).currVertexStatuses).getLast? with
         | none => statusTextOf (str "b") ⟨str "b", 1, 0, str "T", false⟩
         | some s => stripTs s) ++ str "\n")] :=
  claim_C3.2 initLogger _ (str "svc") ⟨str "b", 1, 0, str "T", false⟩ (str "b")
    (by decide) (by decide)

/-- Counterexample for C3 as stated: (a) a permanent-line write that fails
still invokes the listeners; (b) after updating id "a" while id "b" is in
flight, the listener receives b's line (the sorted-last one, doubly
newline-terminated), not the latest status line, which is a's. -/
theorem claim_C3_counterexample :
    ((logMsg initLogger (str "s") (str "T") (str "m") false).2 = true ∧
     (logMsg initLogger (str "s") (str "T") (str "m") false).1.calls =
       [(str "s", str "m\n")] ∧
     (logMsg initLogger (str "s") (str "T") (str "m") false).1.file = initLogger.file) ∧
    (((logStatus initLogger (str "svc") ⟨str "b", 1, 0, str "T", false⟩).bind
        (fun s1 => logStatus s1 (str "svc") ⟨str "a", 1, 0, str "T", false⟩)).map
        (fun s2 => (s2.calls.getLast?, s2.currVertexStatuses)) =
      some (some (str "svc", str "b 1.00B\n\n"),
        [(str "b", str "[T] b 1.00B"), (str "a", str "[T] a 1.00B")]) ∧
     str "b 1.00B\n\n" ≠ str "a 1.00B\n" ∧
     str "b 1.00B\n\n" ≠ str "[T] a 1.00B\n") := by
  exact ⟨⟨by decide, by decide, by decide⟩, by decide, by decide, by decide⟩

/-- Claim C4: a completion event deletes the id from the per-service map (so
the re-rendered ephemeral block has no line for it) and appends exactly one
final permanent line for it to the permanent region; a non-completion event
upserts the id's entry and leaves the permanent region untouched. The spec's
"abc" scenario: after event(50,100) the tail contains abc's line; after
event(100,100,completed) the map and tail are empty and exactly one permanent
line mentioning "abc" exists. -/
theorem claim_C4 :
    (∀ (st st' : LoggerState) (service : GoStr) (vs : VertexStatus) (idT : GoStr),
      idTextOf vs.ID = some idT → logStatus st service vs = some st' →
      vs.Completed = true →
      st'.currVertexStatuses = eraseKey st.currVertexStatuses vs.ID ∧
      ((st.currVertexStatuses.map Prod.fst).Nodup →
        ∀ v, (vs.ID, v) ∉ st'.currVertexStatuses) ∧
      (st.file.pos ≤ st.file.content.length →
        st'.file.pos = st.file.pos +
          (str "[" ++ vs.Timestamp ++ str "] " ++ statusTextOf idT vs ++ str "\n").length ∧
        st'.file.content.take st'.file.pos =
          st.file.content.take st.file.pos ++
            (str "[" ++ vs.Timestamp ++ str "] " ++ statusTextOf idT vs ++ str "\n"))) ∧
    (∀ (st st' : LoggerState) (service : GoStr) (vs : VertexStatus) (idT : GoStr),
      idTextOf vs.ID = some idT → logStatus st service vs = some st' →
      vs.Completed = false →
      st'.currVertexStatuses = upsert st.currVertexStatuses vs.ID
        (str "[" ++ vs.Timestamp ++ str "] " ++ statusTextOf idT vs) ∧
      (st.file.pos ≤ st.file.content.length →
        st'.file.pos = st.file.pos ∧
        st'.file.content.take st'.file.pos = st.file.content.take st.file.pos)) ∧
    ((logStatus initLogger (str "svc") ⟨str "abc", 50, 100, str "T1", false⟩).map
      (fun s1 => hasSub (str "abc") (s1.file.content.drop s1.file.pos)) = some true) ∧
    (((logStatus initLogger (str "svc") ⟨str "abc", 50, 100, str "T1", false⟩).bind
        (fun s1 => logStatus s1 (str "svc") ⟨str "abc", 100, 100, str "T2", true⟩)).map
      (fun s2 => (s2.currVertexStatuses, s2.file.content.drop s2.file.pos,
        (((s2.file.content.take s2.file.pos).splitOn '\n').filter
          (fun l => hasSub (str "abc") l)).length)) = some ([], [], 1)) := by
  refine ⟨?_, ?_, by decide, by decide⟩
  · intro st st' service vs idT hid hlog hC
    simp only [logStatus, hid, hC, if_true] at hlog
    injection hlog with h
    subst h
    refine ⟨rfl, ?_, ?_⟩
    · intro hnodup v
      exact eraseKey_not_mem st.currVertexStatuses vs.ID hnodup v
    · intro hpos
      have w1 := writeAt_take st.file
        (str "[" ++ vs.Timestamp ++ str "] " ++ statusTextOf idT vs ++ str "\n") hpos
      have w2 := writeAt_take_pres
        (writeAt st.file (str "[" ++ vs.Timestamp ++ str "] " ++ statusTextOf idT vs ++ str "\n"))
        ((renderBlock (eraseKey st.currVertexStatuses vs.ID)).flatten) w1.2
      constructor
      · show (writeAt st.file _).pos + _ - _ = _
        simp [writeAt, List.length_append]
      · show ((writeAt (writeAt st.file _) _).content).take
            ((writeAt (writeAt st.file _) _).pos - _) = _
        have hppos : (writeAt (writeAt st.file
              (str "[" ++ vs.Timestamp ++ str "] " ++ statusTextOf idT vs ++ str "\n"))
              ((renderBlock (eraseKey st.currVertexStatuses vs.ID)).flatten)).pos -
            ((renderBlock (eraseKey st.currVertexStatuses vs.ID)).flatten).length =
            (writeAt st.file
              (str "[" ++ vs.Timestamp ++ str "] " ++ statusTextOf idT vs ++ str "\n")).pos := by
          simp [writeAt]
        rw [hppos, w2, w1.1]
  · intro st st' service vs idT hid hlog hC
    simp only [logStatus, hid, hC, Bool.false_eq_true, if_false] at hlog
    injection hlog with h
    subst h
    refine ⟨rfl, ?_⟩
    intro hpos
    constructor
    · show st.file.pos + _ - _ = st.file.pos
      simp [writeAt]
    · have w2 := writeAt_take_pres st.file
        ((renderBlock (upsert st.currVertexStatuses vs.ID
          (str "[" ++ vs.Timestamp ++ str "] " ++ statusTextOf idT vs))).flatten) hpos
      show ((writeAt st.file _).content).take ((writeAt st.file _).pos - _) = _
      have hppos : (writeAt st.file
            ((renderBlock (upsert st.currVertexStatuses vs.ID
              (str "[" ++ vs.Timestamp ++ str "] " ++ statusTextOf idT vs))).flatten)).pos -
          ((renderBlock (upsert st.currVertexStatuses vs.ID
            (str "[" ++ vs.Timestamp ++ str "] " ++ statusTextOf idT vs))).flatten).length =
          st.file.pos := by
        simp [writeAt]
      rw [hppos, w2]

/-- Witness for C4: the completion branch applied to id "abc" completing from
the empty state. -/
theorem claim_C4_witness :
    (⟨[], ⟨str "[T] abc 100.00B/100.00B\n", 24⟩,
        [(str "svc", str "abc 100.00B/100.00B\n")]⟩ : LoggerState).currVertexStatuses =
      eraseKey initLogger.currVertexStatuses (str "abc") ∧
    ((initLogger.currVertexStatuses.map Prod.fst).Nodup →
      ∀ v, (str "abc", v) ∉
        (⟨[], ⟨str "[T] abc 100.00B/100.00B\n", 24⟩,
          [(str "svc", str "abc 100.00B/100.00B\n")]⟩ : LoggerState).currVertexStatuses) ∧
    (initLogger.file.pos ≤ initLogger.file.content.length →
      (⟨[], ⟨str "[T] abc 100.00B/100.00B\n", 24⟩,
        [(str "svc", str "abc 100.00B/100.00B\n")]⟩ : LoggerState).file.pos =
        initLogger.file.pos +
          (str "[" ++ str "T" ++ str "] " ++
            statusTextOf (str "abc") ⟨str "abc", 100, 100, str "T", true⟩ ++ str "\n").length ∧
      (⟨[], ⟨str "[T] abc 100.00B/100.00B\n", 24⟩,
        [(str "svc", str "abc 100.00B/100.00B\n")]⟩ : LoggerState).file.content.take
          (⟨[], ⟨str "[T] abc 100.00B/100.00B\n", 24⟩,
            [(str "svc", str "abc 100.00B/100.00B\n")]⟩ : LoggerState).file.pos =
        initLogger.file.content.take initLogger.file.pos ++
          (str "[" ++ str "T" ++ str "] " ++
            statusTextOf (str "abc") ⟨str "abc", 100, 100, str "T", true⟩ ++ str "\n")) :=
  claim_C4.1 initLogger _ (str "svc") ⟨str "abc", 100, 100, str "T", true⟩ (str "abc")
    (by decide) (by decide) rfl

/-- Claim C5: for a vertex event whose name does not start with "[internal]",
the committed permanent lines are, in order: the verbose diagnostic (when the
flag is set), then — when the vertex carries a non-empty error — a line
combining the error text and the layer digest, then the vertex name line,
prefixed "cached: " when the vertex is cached; an "[internal]" vertex commits
nothing except the verbose diagnostic, which is emitted for every vertex
event unconditionally. -/
theorem claim_C5 :
    ∀ (verbose : Bool) (now : GoStr) (st : LoggerState) (service : GoStr) (v : Vertex),
      st.file.pos = st.file.content.length →
      ((str "[internal]").isPrefixOf v.Name = false →
        (processVertex verbose now st service v).calls =
          st.calls ++ ((if verbose then [(service, trimRN (vertexDiag v) ++ str "\n")] else []) ++
            (if v.Error ≠ [] then [(service, trimRN (vertexErrLine v) ++ str "\n")] else []) ++
            [(service, trimRN (vertexMsg v) ++ str "\n")]) ∧
        (processVertex verbose now st service v).file.content =
          st.file.content ++ ((if verbose then permLineOf now (trimRN (vertexDiag v)) else []) ++
            (if v.Error ≠ [] then permLineOf now (trimRN (vertexErrLine v)) else []) ++
            permLineOf now (trimRN (vertexMsg v)))) ∧
      ((str "[internal]").isPrefixOf v.Name = true →
        (processVertex verbose now st service v).calls =
          st.calls ++ (if verbose then [(service, trimRN (vertexDiag v) ++ str "\n")] else []) ∧
        (processVertex verbose now st service v).file.content =
          st.file.content ++ (if verbose then permLineOf now (trimRN (vertexDiag v)) else [])) := by
  intro verbose now st service v h
  rw [processVertex_eq_logSeq]
  constructor
  · intro hpre
    rw [hpre]
    simp only [Bool.false_eq_true, if_false]
    have hr := logSeq_run ((if verbose then [vertexDiag v] else []) ++
      ((if v.Error ≠ [] then [vertexErrLine v] else []) ++ [vertexMsg v])) st service now h
    refine ⟨?_, ?_⟩
    · rw [hr.1]
      cases verbose <;> by_cases hE : v.Error = [] <;> simp [hE]
    · rw [hr.2.1]
      cases verbose <;> by_cases hE : v.Error = [] <;> simp [hE]
  · intro hpre
    rw [hpre]
    simp only [if_true, List.append_nil]
    have hr := logSeq_run (if verbose then [vertexDiag v] else []) st service now h
    refine ⟨?_, ?_⟩
    · rw [hr.1]
      cases verbose <;> simp
    · rw [hr.2.1]
      cases verbose <;> simp

/-- Witness for C5: a cached, erroring, non-internal vertex with verbose on. -/
theorem claim_C5_witness :
    (processVertex true (str "N") initLogger (str "s")
        ⟨str "step", str "sha256:d", true, str "boom"⟩).calls =
      initLogger.calls ++
        (((if true then [(str "s",
            trimRN (vertexDiag ⟨str "step", str "sha256:d", true, str "boom"⟩) ++ str "\n")]
           else []) ++
          (if (⟨str "step", str "sha256:d", true, str "boom"⟩ : Vertex).Error ≠ [] then
            [(str "s",
              trimRN (vertexErrLine ⟨str "step", str "sha256:d", true, str "boom"⟩) ++ str "\n")]
           else []) ++
          [(str "s", trimRN (vertexMsg ⟨str "step", str "sha256:d", true, str "boom"⟩) ++
            str "\n")])) ∧
    (processVertex true (str "N") initLogger (str "s")
        ⟨str "step", str "sha256:d", true, str "boom"⟩).file.content =
      initLogger.file.content ++
        (((if true then
            permLineOf (str "N") (trimRN (vertexDiag ⟨str "step", str "sha256:d", true, str "boom"⟩))
           else []) ++
          (if (⟨str "step", str "sha256:d", true, str "boom"⟩ : Vertex).Error ≠ [] then
            permLineOf (str "N")
              (trimRN (vertexErrLine ⟨str "step", str "sha256:d", true, str "boom"⟩))
           else []) ++
          permLineOf (str "N")
            (trimRN (vertexMsg ⟨str "step", str "sha256:d", true, str "boom"⟩)))) :=
  (claim_C5 true (str "N") initLogger (str "s")
    ⟨str "step", str "sha256:d", true, str "boom"⟩ rfl).1 (by decide)

/-- Claim C6 (amended): a raw log-line event is committed with the event's own
timestamp (not the wall-clock value), and its message is the event's data with
all leading and trailing carriage-return/newline characters removed — the
removed ends consist only of such characters and the kept core neither starts
nor ends with one. -/
theorem claim_C6 :
    ∀ (now : GoStr) (st : LoggerState) (service : GoStr) (lg : BKLogEvent),
      st.file.pos = st.file.content.length →
      (processLogEvent false now st service lg).file.content =
        st.file.content ++
          (str "[" ++ lg.Timestamp ++ str "] " ++ trimRN lg.Data ++ str "\n") ∧
      (∃ pre suf, lg.Data = pre ++ trimRN lg.Data ++ suf ∧
        pre.all isRN = true ∧ suf.all isRN = true) ∧
      (∀ c, (trimRN lg.Data).head? = some c → isRN c = false) ∧
      (∀ c, (trimRN lg.Data).getLast? = some c → isRN c = false) := by
  intro now st service lg h
  refine ⟨?_, trimRN_decomp lg.Data, trimRN_head lg.Data, trimRN_getLast lg.Data⟩
  have hrun := (logMsg_run st service lg.Timestamp (trimRN lg.Data) h).1
  show (logMsg st service lg.Timestamp (trimRN lg.Data) true).1.file.content = _
  rw [hrun, trimRN_idem]
  rfl

/-- Witness for C6 at the concrete event data "\nhi\r\n". -/
theorem claim_C6_witness :
    (processLogEvent false (str "N") initLogger (str "svc")
        ⟨str "\nhi\r\n", str "d", str "TS"⟩).file.content =
      initLogger.file.content ++
        (str "[" ++ str "TS" ++ str "] " ++ trimRN (str "\nhi\r\n") ++ str "\n") ∧
    (∃ pre suf, str "\nhi\r\n" = pre ++ trimRN (str "\nhi\r\n") ++ suf ∧
      pre.all isRN = true ∧ suf.all isRN = true) ∧
    (∀ c, (trimRN (str "\nhi\r\n")).head? = some c → isRN c = false) ∧
    (∀ c, (trimRN (str "\nhi\r\n")).getLast? = some c → isRN c = false) :=
  claim_C6 (str "N") initLogger (str "svc") ⟨str "\nhi\r\n", str "d", str "TS"⟩ rfl

/-- Counterexample for C6 as stated: the data "\nhello\n" is committed as
"hello" — the leading newline is removed as well, not only the trailing
ones. -/
theorem claim_C6_counterexample :
    (processLogEvent false (str "now") initLogger (str "svc")
        ⟨str "\nhello\n", str "d", str "TS"⟩).file.content = str "[TS] hello\n" ∧
    str "[TS] hello\n" ≠ str "[TS] \nhello\n" := by
  exact ⟨by decide, by decide⟩

/-- Claim C7: short-id derivation — for a status id of the form
"sha256:" ++ payload with a payload of at least 12 characters, the rendered
short id is the first 12 characters of the payload (the 12-character slice of
the id at offset 7); any id without the "sha256:" prefix is used unchanged. -/
theorem claim_C7 :
    (∀ payload : GoStr, 12 ≤ payload.length →
      idTextOf (str "sha256:" ++ payload) = some (payload.take 12)) ∧
    (∀ id : GoStr, (str "sha256:").isPrefixOf id = false → idTextOf id = some id) := by
  constructor
  · intro p hp
    have hpre : (str "sha256:").isPrefixOf (str "sha256:" ++ p) = true := by
      rw [List.isPrefixOf_iff_prefix]; exact List.prefix_append _ _
    have hlen : (str "sha256:" ++ p).length = 7 + p.length := by
      rw [List.length_append]; rfl
    simp only [idTextOf, hpre, if_true, goSlice, hlen]
    rw [if_pos (by omega)]
    rw [show (7 : Nat) = (str "sha256:").length from rfl, List.drop_left,
      show 19 - (str "sha256:").length = 12 from rfl]
  · intro id hpre
    simp only [idTextOf, hpre, Bool.false_eq_true, if_false]

/-- Witness for C7 at a concrete 16-hex-character payload. -/
theorem claim_C7_witness :
    12 ≤ (str "0123456789abcdef").length ∧
    idTextOf (str "sha256:" ++ str "0123456789abcdef") =
      some ((str "0123456789abcdef").take 12) :=
  ⟨by decide, claim_C7.1 (str "0123456789abcdef") (by decide)⟩

/-- Claim C10: the slice status.ID[7:19] is only in bounds when the id has at
least 19 characters; a "sha256:"-prefixed id shorter than that makes logStatus
panic with an out-of-range index (modelled as none) instead of returning an
error. -/
theorem claim_C10 :
    ∀ id : GoStr, (str "sha256:").isPrefixOf id = true → id.length < 19 →
      idTextOf id = none ∧
      ∀ (st : LoggerState) (service : GoStr) (vs : VertexStatus),
        vs.ID = id → logStatus st service vs = none := by
  intro id hpre hlen
  have hid : idTextOf id = none := by
    simp only [idTextOf, hpre, if_true, goSlice]
    rw [if_neg (by omega)]
  refine ⟨hid, ?_⟩
  intro st service vs hvs
  simp only [logStatus, hvs, hid]

/-- Witness for C10 at the concrete too-short id "sha256:ab". -/
theorem claim_C10_witness :
    idTextOf (str "sha256:ab") = none ∧
    logStatus initLogger (str "s") ⟨str "sha256:ab", 0, 0, str "T", false⟩ = none := by
  have h := claim_C10 (str "sha256:ab") (by decide) (by decide)
  exact ⟨h.1, h.2 initLogger (str "s") ⟨str "sha256:ab", 0, 0, str "T", false⟩ rfl⟩

/-- Claim C8: byte humanization — humanize 0 = "0B", the documented example
values, and for every positive count below 2^53 (where the Go float64
computation is exact) the chosen unit index goLogb n / 10 is the largest k
with 1024^k ≤ n, and the output is the two-decimal rendering of n / 1024^k
followed by that unit's suffix. -/
theorem claim_C8 :
    humanReadableBytes 0 = str "0B" ∧
    humanReadableBytes 1024 = str "1.00KB" ∧
    humanReadableBytes 1536 = str "1.50KB" ∧
    humanReadableBytes 1073741824 = str "1.00GB" ∧
    ∀ n : Nat, 0 < n → n < 2 ^ 53 →
      2 ^ (10 * (goLogb n / 10)) ≤ n ∧
      (∀ j : Nat, 2 ^ (10 * j) ≤ n → j ≤ goLogb n / 10) ∧
      humanReadableBytes (n : Int) =
        twoDecimals (roundHalfEven (n * 100) (2 ^ (10 * (goLogb n / 10)))) ++
          str (suffixesHRB.getD (goLogb n / 10) "") := by
  refine ⟨by decide, by decide, by decide, by decide, ?_⟩
  intro n hn hlt
  have h64 : n < 2 ^ 64 := lt_trans hlt (by norm_num)
  obtain ⟨hle, hup⟩ := goLogb_spec n hn h64
  refine ⟨?_, ?_, ?_⟩
  · calc 2 ^ (10 * (goLogb n / 10)) ≤ 2 ^ goLogb n :=
        Nat.pow_le_pow_right (by norm_num) (by omega)
      _ ≤ n := hle
  · intro j hj
    have hjlt : 2 ^ (10 * j) < 2 ^ (goLogb n + 1) := lt_of_le_of_lt hj hup
    have : 10 * j < goLogb n + 1 := (Nat.pow_lt_pow_iff_right (by norm_num)).mp hjlt
    omega
  · have hz : ¬((n : Int) = 0) := by exact_mod_cast Nat.pos_iff_ne_zero.mp hn
    have hneg : ¬((n : Int) < 0) := Int.not_lt.mpr (Int.natCast_nonneg n)
    simp only [humanReadableBytes, hz, if_false, Int.natAbs_ofNat, hneg, List.nil_append]

/-- Witness for C8 at the concrete byte count 1536. -/
theorem claim_C8_witness :
    0 < 1536 ∧ 1536 < 2 ^ 53 ∧
    (2 ^ (10 * (goLogb 1536 / 10)) ≤ 1536 ∧
      (∀ j : Nat, 2 ^ (10 * j) ≤ 1536 → j ≤ goLogb 1536 / 10) ∧
      humanReadableBytes ((1536 : Nat) : Int) =
        twoDecimals (roundHalfEven (1536 * 100) (2 ^ (10 * (goLogb 1536 / 10)))) ++
          str (suffixesHRB.getD (goLogb 1536 / 10) "")) :=
  ⟨by decide, by norm_num, claim_C8.2.2.2.2 1536 (by decide) (by norm_num)⟩

/-- Claim C2 (amended): the health-check decision ladder, in priority order —
zero nodes is fatal "not provisioned"; a node count other than four is fatal
"partially crashed"; four nodes with an expected name missing is fatal "some
nodes were not running while others were"; all present and all ready is
healthy; some not ready while AT LEAST ONE node's last transition is within
the 1-minute window prompts the operator (yes fails as needing redeploy,
no/default is healthy); some not ready with ALL transitions at least a minute
old is fatal "cluster is not ready". -/
theorem claim_C2 :
    ∀ (nodes : List String) (nodeTimes : List Int) (nodesReady : List String)
      (now : Int) (answer : Answer),
      (nodes.length = 0 →
        checkCluster nodes nodeTimes nodesReady now answer = .error .notProvisioned) ∧
      (nodes.length ≠ 0 → nodes.length ≠ 4 →
        checkCluster nodes nodeTimes nodesReady now answer =
          .error (.partiallyCrashed nodes.length 4)) ∧
      (nodes.length = 4 → requiredNodeNames.any (fun n => !(nodes.contains n)) = true →
        checkCluster nodes nodeTimes nodesReady now answer = .error .someNotRunning) ∧
      (nodes.length = 4 → requiredNodeNames.any (fun n => !(nodes.contains n)) = false →
        nodeTimes.length = 4 → nodesReady.all (fun s => s == "True") = true →
        checkCluster nodes nodeTimes nodesReady now answer = .ok ()) ∧
      (nodes.length = 4 → requiredNodeNames.any (fun n => !(nodes.contains n)) = false →
        nodeTimes.length = 4 → nodesReady.all (fun s => s == "True") = false →
        nodeTimes.any (fun t => decide (now < t + 60)) = true →
        ((answer = .yes →
          checkCluster nodes nodeTimes nodesReady now answer = .error .needsRedeploy) ∧
         (answer ≠ .yes →
          checkCluster nodes nodeTimes nodesReady now answer = .ok ()))) ∧
      (nodes.length = 4 → requiredNodeNames.any (fun n => !(nodes.contains n)) = false →
        nodeTimes.length = 4 → nodesReady.all (fun s => s == "True") = false →
        nodeTimes.any (fun t => decide (now < t + 60)) = false →
        checkCluster nodes nodeTimes nodesReady now answer = .error .notHealthy) := by
  intro nodes nodeTimes nodesReady now answer
  have hreq : requiredNodeNames.length = 4 := rfl
  refine ⟨?_, ?_, ?_, ?_, ?_, ?_⟩
  · intro h0
    simp [checkCluster, h0]
  · intro h0 h4
    rw [checkCluster, if_neg h0, if_pos (by rw [hreq]; exact h4)]
    rw [hreq]
  · intro h4 hmiss
    rw [checkCluster, if_neg (by omega), if_neg (by rw [hreq, h4]; simp), if_pos hmiss]
  · intro h4 hmiss hlen hready
    rw [checkCluster, if_neg (by omega), if_neg (by rw [hreq, h4]; simp), if_neg (by rw [hmiss]; simp),
      checkClusterReady, if_neg (by rw [hlen]; simp), if_pos hready]
  · intro h4 hmiss hlen hready hrecent
    constructor
    · intro hyes
      subst hyes
      rw [checkCluster, if_neg (by omega), if_neg (by rw [hreq, h4]; simp),
        if_neg (by rw [hmiss]; simp), checkClusterReady, if_neg (by rw [hlen]; simp),
        if_neg (by rw [hready]; simp), if_pos hrecent, if_pos rfl]
    · intro hnyes
      rw [checkCluster, if_neg (by omega), if_neg (by rw [hreq, h4]; simp),
        if_neg (by rw [hmiss]; simp), checkClusterReady, if_neg (by rw [hlen]; simp),
        if_neg (by rw [hready]; simp), if_pos hrecent, if_neg hnyes]
  · intro h4 hmiss hlen hready hstale
    rw [checkCluster, if_neg (by omega), if_neg (by rw [hreq, h4]; simp),
      if_neg (by rw [hmiss]; simp), checkClusterReady, if_neg (by rw [hlen]; simp),
      if_neg (by rw [hready]; simp), if_neg (by rw [hstale]; simp)]

/-- Witness for C2: the expected four nodes, all ready. -/
theorem claim_C2_witness :
    checkCluster requiredNodeNames [0, 0, 0, 0] ["True", "True", "True", "True"] 0
      Answer.no = .ok () :=
  (claim_C2 requiredNodeNames [0, 0, 0, 0] ["True", "True", "True", "True"] 0
      Answer.no).2.2.2.1 rfl rfl rfl rfl

/-- Counterexample for C2 as stated: four expected nodes, one not ready, one
recent transition and three stale ones. Not every transition is within the
1-minute window, so the claim's ladder demands the fatal "cluster not
healthy" outcome — but the code prompts (any single recent transition
suffices): it fails as needing redeploy on "yes" and reports healthy on the
default answer. -/
theorem claim_C2_counterexample :
    checkCluster requiredNodeNames [990, 700, 700, 700]
      ["True", "True", "True", "False"] 1000 Answer.empty = .ok () ∧
    checkCluster requiredNodeNames [990, 700, 700, 700]
      ["True", "True", "True", "False"] 1000 Answer.yes = .error .needsRedeploy ∧
    ([(990 : Int), 700, 700, 700].all (fun t => decide ((1000 : Int) < t + 60))) = false ∧
    (["True", "True", "True", "False"].all (fun s => s == "True")) = false :=
  ⟨rfl, rfl, rfl, rfl⟩

end Sanic
